import Mathlib

/-!
Verification of the papyrus streamed-data substream protocol core:
the length-delimited message framing codec, the inbound and outbound
substream upgrades (`crates/papyrus_network/src/streamed_data/protocol.rs`)
and the block-range query model (`crates/papyrus_network/src/lib.rs`).

Streams are embedded as in-memory duplex ends: a read buffer holding the
bytes the peer has sent before closing its side, and a write buffer holding
the bytes written so far.  Bytes are natural numbers (the encoder only ever
emits values below 256).
-/

namespace Papyrus

/-- One end of an in-memory duplex stream: `readBuf` holds the bytes still
unread from the peer (the peer's side is closed after them), `writeBuf`
holds the bytes written so far on this end. -/
structure DuplexEnd where
  readBuf : List Nat
  writeBuf : List Nat
deriving DecidableEq, Repr

/-- The message capability required by the codec and both upgrades
(spec: binary-encode, binary-decode, produce-a-default-instance;
in the source this is the bound `Message + Default`). -/
structure MessageCap (α : Type) where
  encode : α → List Nat
  decode : List Nat → Option α
  defaultVal : α

/-- Error taxonomy of the framing codec and the upgrades: truncated record,
undecodable payload, and end-of-input where a message was mandatory. -/
inductive CodecError
  | truncation
  | decodeError
  | unexpectedEof
deriving DecidableEq, Repr

/-- LEB128 variable-length encoding of an unsigned length: low seven bits
first, high bit of a byte set when more bytes follow.  `fuel` bounds the
recursion; `fuel = n` always suffices. -/
def varintEncodeAux : Nat → Nat → List Nat
  | 0, n => [n % 128]
  | fuel + 1, n => if n < 128 then [n] else (n % 128 + 128) :: varintEncodeAux fuel (n / 128)

/-- LEB128 encoding of an unsigned length. -/
def varintEncode (n : Nat) : List Nat :=
  varintEncodeAux n n

/-- LEB128 decoding: returns the decoded value and the remaining bytes, or
`none` when the input ends inside the varint. -/
def varintDecode : List Nat → Option (Nat × List Nat)
  | [] => none
  | b :: rest =>
    if b < 128 then some (b, rest)
    else
      match varintDecode rest with
      | none => none
      | some (v, rest') => some (b - 128 + 128 * v, rest')

/-- Modelled from the spec: `write_message` of the crate's `messages` module,
whose source file is not among the given sources (only its callers in
`protocol.rs` are).  Per spec §4.1, it serializes the message to its binary
form, writes an unsigned length delimiter followed by the payload, and
flushes; on the in-memory stream the write itself cannot fail. -/
def write_message {α : Type} (cap : MessageCap α) (m : α) (s : DuplexEnd) : DuplexEnd :=
  { s with writeBuf := s.writeBuf ++ (varintEncode (cap.encode m).length ++ cap.encode m) }

/-- Modelled from the spec: `read_message` of the crate's `messages` module,
whose source file is not among the given sources.  Per spec §4.1, it reads a
length delimiter; clean end-of-input before any bytes of a record yields
"no message"; end-of-input inside the delimiter or before the full payload
is a truncation error; payload bytes that do not parse are a decode error. -/
def read_message {α : Type} (cap : MessageCap α) (s : DuplexEnd) :
    Except CodecError (Option α × DuplexEnd) :=
  if s.readBuf = [] then Except.ok (none, s)
  else
    match varintDecode s.readBuf with
    | none => Except.error CodecError.truncation
    | some (len, remaining) =>
      if remaining.length < len then Except.error CodecError.truncation
      else
        match cap.decode (remaining.take len) with
        | none => Except.error CodecError.decodeError
        | some m => Except.ok (some m, ⟨remaining.drop len, s.writeBuf⟩)

/-- Protocol identifier used during negotiation (source: `StreamProtocol`). -/
structure StreamProtocol where
  name : String
deriving DecidableEq, Repr

/-- Server side of the exchange (source: `InboundProtocol<Query>`; the
phantom query-type parameter carries no runtime data and is dropped). -/
structure InboundProtocol where
  protocol_name : StreamProtocol
deriving DecidableEq, Repr

/-- Source: `InboundProtocol::new`. -/
def InboundProtocol.new (protocol_name : StreamProtocol) : InboundProtocol :=
  ⟨protocol_name⟩

/-- Source: `UpgradeInfo::protocol_info` for `InboundProtocol`:
`iter::once(self.protocol_name.clone())`. -/
def InboundProtocol.protocol_info (ip : InboundProtocol) : List StreamProtocol :=
  [ip.protocol_name]

/-- Source: `InboundProtocol::upgrade_inbound`: read one request message;
"no message" is converted into an unexpected-end-of-input error; on success
yield the decoded request together with the stream. -/
def InboundProtocol.upgrade_inbound {α : Type} (_ip : InboundProtocol) (cap : MessageCap α)
    (s : DuplexEnd) : Except CodecError (α × DuplexEnd) :=
  match read_message cap s with
  | Except.error e => Except.error e
  | Except.ok (none, _) => Except.error CodecError.unexpectedEof
  | Except.ok (some q, s') => Except.ok (q, s')

/-- Client side of the exchange (source: `OutboundProtocol<Query>`). -/
structure OutboundProtocol (α : Type) where
  query : α
  protocol_name : StreamProtocol

/-- Source: `UpgradeInfo::protocol_info` for `OutboundProtocol`:
`iter::once(self.protocol_name.clone())`. -/
def OutboundProtocol.protocol_info {α : Type} (op : OutboundProtocol α) : List StreamProtocol :=
  [op.protocol_name]

/-- Source: `OutboundProtocol::upgrade_outbound`: write the query with
`write_message`, then yield the stream back. -/
def OutboundProtocol.upgrade_outbound {α : Type} (op : OutboundProtocol α) (cap : MessageCap α)
    (s : DuplexEnd) : Except CodecError DuplexEnd :=
  Except.ok (write_message cap op.query s)

/-- Source: `Direction` in `lib.rs`. -/
inductive Direction
  | Forward
  | Backward
deriving DecidableEq, Repr

/-- Block hash (from `starknet_api`, a field element; embedded as `Nat`
since the core performs no arithmetic on it). -/
structure BlockHash where
  hash : Nat
deriving DecidableEq, Repr

/-- Block height (from `starknet_api`, a `u64`; embedded as `Nat` since the
core performs no arithmetic on it). -/
structure BlockNumber where
  number : Nat
deriving DecidableEq, Repr

/-- Source: `BlockID` in `lib.rs`. -/
inductive BlockID
  | Hash (h : BlockHash)
  | Number (n : BlockNumber)
deriving DecidableEq, Repr

/-- Source: `BlockQuery` in `lib.rs`: five public fields, no constructor
logic, no validation. -/
structure BlockQuery where
  start : BlockID
  direction : Direction
  limit : Nat
  skip : Nat
  step : Nat
deriving DecidableEq, Repr

/-- Modelled from the spec: the default instance of the query message type
(the protobuf `Default` bound; the `messages` module is not among the given
sources).  All-fields-default per spec §3 "default-constructed to an
empty/identity value". -/
def defaultBlockQuery : BlockQuery :=
  ⟨BlockID.Number ⟨0⟩, Direction.Forward, 0, 0, 0⟩

/-- Modelled from the spec: a concrete capability-compatible binary
serialization of `BlockQuery` (spec §6 allows any capability-compatible
format): a tag byte for the `BlockID` variant, then varint fields. -/
def encodeBlockQuery (q : BlockQuery) : List Nat :=
  (match q.start with
   | BlockID.Hash h => 0 :: varintEncode h.hash
   | BlockID.Number n => 1 :: varintEncode n.number) ++
  [match q.direction with | Direction.Forward => 0 | Direction.Backward => 1] ++
  varintEncode q.limit ++ varintEncode q.skip ++ varintEncode q.step

/-- Parse a `BlockID` from a tag byte followed by a varint. -/
def decodeBlockID : List Nat → Option (BlockID × List Nat)
  | 0 :: rest =>
    match varintDecode rest with
    | some (v, rest') => some (BlockID.Hash ⟨v⟩, rest')
    | none => none
  | 1 :: rest =>
    match varintDecode rest with
    | some (v, rest') => some (BlockID.Number ⟨v⟩, rest')
    | none => none
  | _ => none

/-- Parse a `Direction` from one byte. -/
def decodeDirection : List Nat → Option (Direction × List Nat)
  | 0 :: rest => some (Direction.Forward, rest)
  | 1 :: rest => some (Direction.Backward, rest)
  | _ => none

/-- Modelled from the spec: binary decoding of `BlockQuery`, inverse of
`encodeBlockQuery`; an empty payload decodes to the default instance
(spec §4.1 edge case for zero-length records). -/
def decodeBlockQuery (bs : List Nat) : Option BlockQuery :=
  match bs with
  | [] => some defaultBlockQuery
  | _ :: _ =>
    match decodeBlockID bs with
    | none => none
    | some (sid, r1) =>
      match decodeDirection r1 with
      | none => none
      | some (dir, r2) =>
        match varintDecode r2 with
        | none => none
        | some (lim, r3) =>
          match varintDecode r3 with
          | none => none
          | some (sk, r4) =>
            match varintDecode r4 with
            | none => none
            | some (st, r5) => if r5 = [] then some ⟨sid, dir, lim, sk, st⟩ else none

/-- The capability instance for `BlockQuery` messages. -/
def blockQueryCap : MessageCap BlockQuery where
  encode := encodeBlockQuery
  decode := decodeBlockQuery
  defaultVal := defaultBlockQuery

/-- A minimal capability-compatible message type used as a concrete
instance in witnesses: a natural number encoded as a single varint; an
empty payload decodes to the default value 0. -/
def natCap : MessageCap Nat where
  encode := varintEncode
  decode := fun bs =>
    match bs with
    | [] => some 0
    | _ :: _ =>
      match varintDecode bs with
      | some (v, []) => some v
      | _ => none
  defaultVal := 0

/-- The canonical test query of spec §8. -/
def q100 : BlockQuery :=
  ⟨BlockID.Number ⟨100⟩, Direction.Forward, 10, 0, 1⟩

/-- A protocol identifier for the canonical exchange. -/
def blocksProtocolName : StreamProtocol :=
  ⟨"/starknet/blocks/1"⟩

theorem varintEncodeAux_ne_nil (fuel n : Nat) : varintEncodeAux fuel n ≠ [] := by
  cases fuel with
  | zero => simp [varintEncodeAux]
  | succ f =>
    simp only [varintEncodeAux]
    split <;> simp

theorem varintEncode_ne_nil (n : Nat) : varintEncode n ≠ [] :=
  varintEncodeAux_ne_nil n n

theorem varintDecode_encodeAux (fuel : Nat) :
    ∀ n rest, n ≤ fuel → varintDecode (varintEncodeAux fuel n ++ rest) = some (n, rest) := by
  induction fuel with
  | zero =>
    intro n rest hn
    have hn0 : n = 0 := Nat.le_zero.mp hn
    subst hn0
    simp [varintEncodeAux, varintDecode]
  | succ f ih =>
    intro n rest hn
    by_cases h : n < 128
    · simp [varintEncodeAux, h, varintDecode]
    · have hpos : 0 < n := by omega
      have hdiv : n / 128 < n := Nat.div_lt_self hpos (by omega)
      have h2 : n / 128 ≤ f := by omega
      have hb : ¬ (n % 128 + 128 < 128) := by omega
      simp only [varintEncodeAux, if_neg h, List.cons_append, varintDecode, if_neg hb,
        ih (n / 128) rest h2]
      have : n % 128 + 128 - 128 + 128 * (n / 128) = n := by omega
      rw [this]

theorem varintDecode_encode (n : Nat) (rest : List Nat) :
    varintDecode (varintEncode n ++ rest) = some (n, rest) :=
  varintDecode_encodeAux n n rest (Nat.le_refl n)

/-- Reading from a stream whose unread bytes are one well-framed record
followed by `rest` parses the delimiter, consumes exactly the payload, and
hands the payload to the message decoder. -/
theorem read_message_record {α : Type} (cap : MessageCap α) (payload rest wb : List Nat) :
    read_message cap ⟨varintEncode payload.length ++ (payload ++ rest), wb⟩ =
      (match cap.decode payload with
       | none => Except.error CodecError.decodeError
       | some m => Except.ok (some m, ⟨rest, wb⟩)) := by
  have hne : varintEncode payload.length ++ (payload ++ rest) ≠ [] := by
    intro hc
    exact varintEncode_ne_nil payload.length (List.append_eq_nil.mp hc).1
  have hlen : ¬ ((payload ++ rest).length < payload.length) := by
    simp [List.length_append]
  have htake : (payload ++ rest).take payload.length = payload := List.take_left payload rest
  have hdrop : (payload ++ rest).drop payload.length = rest := List.drop_left payload rest
  simp only [read_message, if_neg hne, varintDecode_encode, if_neg hlen, htake, hdrop]

/-- C1: for every message value `m` of a capability-compatible type (one
whose decoder inverts its encoder on `m`), writing `m` with `write_message`
on one end of an in-memory duplex stream and then running `read_message`
over the bytes that write produced on the other end returns "some message"
whose value equals `m`. -/
theorem C1_write_read_roundtrip {α : Type} (cap : MessageCap α) (m : α) (s : DuplexEnd)
    (wb : List Nat) (hdec : cap.decode (cap.encode m) = some m) :
    read_message cap ⟨(write_message cap m s).writeBuf.drop s.writeBuf.length, wb⟩ =
      Except.ok (some m, ⟨[], wb⟩) := by
  have h1 : (write_message cap m s).writeBuf.drop s.writeBuf.length
      = varintEncode (cap.encode m).length ++ (cap.encode m ++ []) := by
    simp [write_message]
  rw [h1, read_message_record, hdec]

/-- Witness for C1 at the concrete capability `natCap` and message `7`. -/
theorem C1_write_read_roundtrip_witness :
    natCap.decode (natCap.encode 7) = some 7 ∧
    read_message natCap ⟨(write_message natCap 7 ⟨[], []⟩).writeBuf.drop ([] : List Nat).length,
        []⟩ = Except.ok (some 7, ⟨[], []⟩) :=
  ⟨by decide, C1_write_read_roundtrip natCap 7 ⟨[], []⟩ [] (by decide)⟩

/-- C2: running the Inbound upgrade on a stream closed before any bytes
arrive fails with the unexpected-end-of-input error; it never reaches
`Ready` (it never returns an `ok` outcome, so never a `Ready` with an
absent request). -/
theorem C2_inbound_empty_unexpected_eof {α : Type} (cap : MessageCap α) (p : StreamProtocol)
    (wb : List Nat) :
    InboundProtocol.upgrade_inbound (InboundProtocol.new p) cap ⟨[], wb⟩ =
        Except.error CodecError.unexpectedEof ∧
    ∀ out, InboundProtocol.upgrade_inbound (InboundProtocol.new p) cap ⟨[], wb⟩ ≠
        Except.ok out := by
  have h : InboundProtocol.upgrade_inbound (InboundProtocol.new p) cap ⟨[], wb⟩ =
      Except.error CodecError.unexpectedEof := by
    simp [InboundProtocol.upgrade_inbound, read_message]
  refine ⟨h, fun out hc => ?_⟩
  rw [h] at hc
  exact Except.noConfusion hc

/-- C3: for the request `BlockQuery{start: Number(100), direction: Forward,
limit: 10, skip: 0, step: 1}`, running the Outbound upgrade's write phase
over one end of a duplex stream and the Inbound upgrade's read phase over
the other end yields an Inbound success whose decoded request equals the
original query. -/
theorem C3_outbound_then_inbound_q100 :
    (OutboundProtocol.upgrade_outbound ⟨q100, blocksProtocolName⟩ blockQueryCap
        ⟨[], []⟩).bind
      (fun sentEnd =>
        InboundProtocol.upgrade_inbound (InboundProtocol.new blocksProtocolName) blockQueryCap
          ⟨sentEnd.writeBuf, []⟩) =
      Except.ok (q100, ⟨[], []⟩) := by
  rfl

/-- C4: reading from a stream that is at clean end-of-input with zero bytes
pending returns "no message" (not an error). -/
theorem C4_clean_end_no_message {α : Type} (cap : MessageCap α) (wb : List Nat) :
    read_message cap ⟨[], wb⟩ = Except.ok (none, ⟨[], wb⟩) ∧
    ∀ e, read_message cap ⟨[], wb⟩ ≠ Except.error e := by
  have h : read_message cap ⟨[], wb⟩ = Except.ok (none, ⟨[], wb⟩) := by
    simp [read_message]
  refine ⟨h, fun e hc => ?_⟩
  rw [h] at hc
  exact Except.noConfusion hc

/-- C5: a length delimiter `L` followed by fewer than `L` payload bytes and
then end of stream makes `read_message` fail with the truncation error, an
outcome distinct from the "no message" outcome. -/
theorem C5_truncation_detected {α : Type} (cap : MessageCap α) (L : Nat) (payload wb : List Nat)
    (h : payload.length < L) :
    read_message cap ⟨varintEncode L ++ payload, wb⟩ = Except.error CodecError.truncation ∧
    ∀ r, read_message cap ⟨varintEncode L ++ payload, wb⟩ ≠ Except.ok (none, r) := by
  have hne : varintEncode L ++ payload ≠ [] := by
    intro hc
    exact varintEncode_ne_nil L (List.append_eq_nil.mp hc).1
  have hmain : read_message cap ⟨varintEncode L ++ payload, wb⟩ =
      Except.error CodecError.truncation := by
    simp only [read_message, if_neg hne, varintDecode_encode, if_pos h]
  refine ⟨hmain, fun r hc => ?_⟩
  rw [hmain] at hc
  exact Except.noConfusion hc

/-- Witness for C5: delimiter 3 followed by a single payload byte. -/
theorem C5_truncation_detected_witness :
    ([1] : List Nat).length < 3 ∧
    read_message natCap ⟨varintEncode 3 ++ [1], []⟩ = Except.error CodecError.truncation :=
  ⟨by decide, (C5_truncation_detected natCap 3 [1] [] (by decide)).1⟩

/-- C6: a well-framed record (exact delimiter, exactly that many payload
bytes) whose payload does not parse as the message type fails with the
decode error; it does not return the message type's default value (and the
total embedding cannot panic). -/
theorem C6_decode_rejection {α : Type} (cap : MessageCap α) (payload rest wb : List Nat)
    (h : cap.decode payload = none) :
    read_message cap ⟨varintEncode payload.length ++ (payload ++ rest), wb⟩ =
        Except.error CodecError.decodeError ∧
    ∀ r, read_message cap ⟨varintEncode payload.length ++ (payload ++ rest), wb⟩ ≠
        Except.ok (some cap.defaultVal, r) := by
  have hmain := read_message_record cap payload rest wb
  rw [h] at hmain
  refine ⟨hmain, fun r hc => ?_⟩
  rw [hmain] at hc
  exact Except.noConfusion hc

/-- Witness for C6: the byte 200 announces a varint continuation that never
comes, so it is not a valid `natCap` payload. -/
theorem C6_decode_rejection_witness :
    natCap.decode [200] = none ∧
    read_message natCap ⟨varintEncode ([200] : List Nat).length ++ ([200] ++ []), []⟩ =
        Except.error CodecError.decodeError :=
  ⟨by decide, (C6_decode_rejection natCap [200] [] [] (by decide)).1⟩

/-- C7: a record whose declared length is zero decodes to the message
type's default value, an outcome distinct from "no message", and the record
that follows it can still be read afterwards. -/
theorem C7_zero_length_record_default {α : Type} (cap : MessageCap α) (m : α) (wb : List Nat)
    (h0 : cap.decode [] = some cap.defaultVal)
    (hm : cap.decode (cap.encode m) = some m) :
    read_message cap ⟨0 :: (varintEncode (cap.encode m).length ++ (cap.encode m ++ [])), wb⟩ =
      Except.ok (some cap.defaultVal,
        ⟨varintEncode (cap.encode m).length ++ (cap.encode m ++ []), wb⟩) ∧
    read_message cap ⟨varintEncode (cap.encode m).length ++ (cap.encode m ++ []), wb⟩ =
      Except.ok (some m, ⟨[], wb⟩) ∧
    (some cap.defaultVal : Option α) ≠ none := by
  refine ⟨?_, ?_, by simp⟩
  · have hshape : (0 : Nat) :: (varintEncode (cap.encode m).length ++ (cap.encode m ++ [])) =
        varintEncode ([] : List Nat).length ++
          ([] ++ (varintEncode (cap.encode m).length ++ (cap.encode m ++ []))) := by
      simp [varintEncode, varintEncodeAux]
    rw [hshape, read_message_record, h0]
  · rw [read_message_record, hm]

/-- Witness for C7 at `natCap` with the following record carrying `5`. -/
theorem C7_zero_length_record_default_witness :
    natCap.decode [] = some natCap.defaultVal ∧
    natCap.decode (natCap.encode 5) = some 5 ∧
    read_message natCap
        ⟨0 :: (varintEncode (natCap.encode 5).length ++ (natCap.encode 5 ++ [])), []⟩ =
      Except.ok (some natCap.defaultVal,
        ⟨varintEncode (natCap.encode 5).length ++ (natCap.encode 5 ++ []), []⟩) :=
  ⟨by decide, by decide,
    (C7_zero_length_record_default natCap 5 [] (by decide) (by decide)).1⟩

/-- C8: the Outbound upgrade always succeeds on the in-memory stream,
appends exactly the one framed request message to the write side, leaves
the read side untouched (it never reads), and yields back the same stream
it was given with no other modification. -/
theorem C8_outbound_writes_exactly_one {α : Type} (cap : MessageCap α)
    (op : OutboundProtocol α) (s : DuplexEnd) :
    OutboundProtocol.upgrade_outbound op cap s =
      Except.ok ⟨s.readBuf,
        s.writeBuf ++ (varintEncode (cap.encode op.query).length ++ cap.encode op.query)⟩ :=
  rfl

/-- C9: a `BlockQuery` built from five field values holds exactly those
values, with no defaulting, clamping or validation; in particular a `step`
of `0` is carried unchanged. -/
theorem C9_blockQuery_carries_fields (b : BlockID) (d : Direction) (l sk st : Nat) :
    (BlockQuery.mk b d l sk st).start = b ∧
    (BlockQuery.mk b d l sk st).direction = d ∧
    (BlockQuery.mk b d l sk st).limit = l ∧
    (BlockQuery.mk b d l sk st).skip = sk ∧
    (BlockQuery.mk b d l sk st).step = st ∧
    (BlockQuery.mk b d l sk 0).step = 0 :=
  ⟨rfl, rfl, rfl, rfl, rfl, rfl⟩

/-- C10: for every protocol name `p`, both the Inbound protocol constructed
with `p` and the Outbound protocol carrying `p` advertise exactly one
protocol identifier, and that identifier equals `p`. -/
theorem C10_protocol_info_exactly_one {α : Type} (p : StreamProtocol) (q : α) :
    InboundProtocol.protocol_info (InboundProtocol.new p) = [p] ∧
    OutboundProtocol.protocol_info (OutboundProtocol.mk q p) = [p] ∧
    (InboundProtocol.protocol_info (InboundProtocol.new p)).length = 1 ∧
    (OutboundProtocol.protocol_info (OutboundProtocol.mk q p)).length = 1 :=
  ⟨rfl, rfl, rfl, rfl⟩

end Papyrus
